import Mathlib

/-!
Shallow embedding of the multi-agent orchestration module
(`Python/tools/orchestration_tools.py`) of `cogpy/unrealcog-mcp`.

Modelling conventions:
* Timestamps: the Python code reads a wall clock (`time.time() * 1000` for id
  generation and `datetime.now().isoformat()` for record timestamps).  Both are
  modelled by a single injected `now : Nat` (milliseconds) passed to each
  operation, following the spec's note that the current-time source is an
  externally supplied collaborator.
* `json.loads` is an external library function; it is modelled by an injected
  total function `decode : String → Option JValue`, where `none` stands for a
  `json.JSONDecodeError`.  The Python idiom `json.loads(x) if x else {}` is
  modelled explicitly (`""` bypasses the decoder and yields the empty object).
* Python dicts preserve insertion order and update existing keys in place;
  they are modelled as association lists with `dictInsert` / `dictLookup`.
* Optional string fields that Python tests for truthiness (`not task.assigned_agent`)
  are modelled as `String` with `""` meaning absent, matching the tool-level
  defaults in the source.
-/

/-- A JSON-like structured value, the result of parsing a string payload. -/
inductive JValue where
  | null
  | jbool (b : Bool)
  | jnum (n : Int)
  | jstr (s : String)
  | jarr (xs : List JValue)
  | jobj (fields : List (String × JValue))
deriving Repr

/-- Python `AgentSession.__init__`: an active AI agent session. -/
structure AgentSession where
  agent_id : String
  agent_type : String
  capabilities : List String
  created_at : Nat
  last_active : Nat
  status : String
  task_count : Nat
  metadata : JValue
deriving Repr

/-- Python `KnowledgeAtom.__init__` (plus the `metadata` attribute that
`share_knowledge` sets after construction). -/
structure KnowledgeAtom where
  atom_type : String
  content : JValue
  source_agent : String
  created_at : Nat
  access_count : Nat
  last_accessed : Option Nat
  metadata : JValue
deriving Repr

/-- Python `WorkflowTask.__init__`: a task in the coordinated workflow. -/
structure WorkflowTask where
  task_id : String
  task_type : String
  params : JValue
  assigned_agent : String
  priority : Int
  status : String
  created_at : Nat
  started_at : Option Nat
  completed_at : Option Nat
  result : Option JValue
deriving Repr

/-- One record appended to `workflow_history` by `complete_workflow_task`. -/
structure HistoryRecord where
  task_id : String
  task_type : String
  agent : String
  status : String
  completed_at : Nat
  result : JValue
deriving Repr

/-- The global `_orchestration_state` dictionary (minus the lock, which makes
each operation below atomic). -/
structure OrchState where
  agents : List (String × AgentSession)
  knowledge_base : List (String × KnowledgeAtom)
  task_queue : List WorkflowTask
  workflow_history : List HistoryRecord
deriving Repr

/-- The initial (empty) orchestration state. -/
def initState : OrchState :=
  { agents := [], knowledge_base := [], task_queue := [], workflow_history := [] }

/-- Python dict lookup (`d[k]` / `k in d`). -/
def dictLookup (d : List (String × α)) (k : String) : Option α :=
  match d with
  | [] => none
  | (k', v) :: rest => if k' = k then some v else dictLookup rest k

/-- Python dict assignment `d[k] = v`: updates an existing key in place,
otherwise appends at the end (insertion order preserved). -/
def dictInsert (d : List (String × α)) (k : String) (v : α) : List (String × α) :=
  match d with
  | [] => [(k, v)]
  | (k', v') :: rest =>
      if k' = k then (k', v) :: rest else (k', v') :: dictInsert rest k v

/-- Mutating the first list element satisfying `p` through `f`, leaving the
rest unchanged (the effect of Python's find-then-mutate loops on a list). -/
def modifyFirst (p : α → Bool) (f : α → α) : List α → List α
  | [] => []
  | x :: xs => if p x then f x :: xs else x :: modifyFirst p f xs

/-- Python `capabilities.split(",")` with `strip()`, guarded by truthiness. -/
def parseCapabilities (capabilities : String) : List String :=
  if capabilities = "" then [] else (capabilities.splitOn ",").map (·.trim)

/-- Result of `register_agent`. -/
inductive RegisterResult where
  | reactivated (id ty : String) (capabilities : List String) (task_count : Nat)
  | created (id ty : String) (capabilities : List String) (created_at : Nat)
deriving Repr, DecidableEq

/-- Python `register_agent`: register a new agent session, or reactivate an
existing one (refreshing `last_active` and `status` only). -/
def register_agent (now : Nat) (agent_id agent_type capabilities : String)
    (s : OrchState) : RegisterResult × OrchState :=
  let cap_list := parseCapabilities capabilities
  match dictLookup s.agents agent_id with
  | some agent =>
      let agent' := { agent with last_active := now, status := "active" }
      (RegisterResult.reactivated agent'.agent_id agent'.agent_type
        agent'.capabilities agent'.task_count,
       { s with agents := dictInsert s.agents agent_id agent' })
  | none =>
      let agent : AgentSession :=
        { agent_id := agent_id, agent_type := agent_type, capabilities := cap_list,
          created_at := now, last_active := now, status := "active",
          task_count := 0, metadata := JValue.jobj [] }
      (RegisterResult.created agent_id agent_type cap_list now,
       { s with agents := dictInsert s.agents agent_id agent })

/-- Result of `deregister_agent`. -/
inductive DeregisterResult where
  | success
  | notFound
deriving Repr, DecidableEq

/-- Python `deregister_agent`: mark an agent inactive (the record is kept). -/
def deregister_agent (agent_id : String) (s : OrchState) :
    DeregisterResult × OrchState :=
  match dictLookup s.agents agent_id with
  | none => (DeregisterResult.notFound, s)
  | some agent =>
      (DeregisterResult.success,
       { s with agents := dictInsert s.agents agent_id { agent with status := "inactive" } })

/-- Result of `share_knowledge`. -/
inductive ShareResult where
  | success (atom_id knowledge_type : String) (created_at : Nat)
  | invalidJson
deriving Repr, DecidableEq

/-- Python `share_knowledge`: validate the JSON payloads, then store a new atom
under the timestamp-derived id `f"{knowledge_type}_{int(time.time()*1000)}"`. -/
def share_knowledge (decode : String → Option JValue) (now : Nat)
    (knowledge_type knowledge_content source_agent metadata : String)
    (s : OrchState) : ShareResult × OrchState :=
  let contentOpt := if knowledge_content = "" then some (JValue.jobj [])
                    else decode knowledge_content
  let metaOpt := if metadata = "" then some (JValue.jobj []) else decode metadata
  match contentOpt, metaOpt with
  | some content, some meta =>
      let atom_id := knowledge_type ++ "_" ++ toString now
      let atom : KnowledgeAtom :=
        { atom_type := knowledge_type, content := content,
          source_agent := source_agent, created_at := now, access_count := 0,
          last_accessed := none, metadata := meta }
      (ShareResult.success atom_id knowledge_type now,
       { s with knowledge_base := dictInsert s.knowledge_base atom_id atom })
  | _, _ => (ShareResult.invalidJson, s)

/-- One entry of the `atoms` list returned by `query_knowledge`
(`access_count` is read after the increment). -/
structure AtomView where
  atom_id : String
  atom_type : String
  content : JValue
  source_agent : String
  created_at : Nat
  access_count : Nat
deriving Repr

/-- Result of `query_knowledge`. -/
structure QueryResult where
  total_results : Nat
  atoms : List AtomView
deriving Repr

/-- The filter-skip condition of the `query_knowledge` loop. -/
def querySkip (knowledge_type source_agent : String) (a : KnowledgeAtom) : Bool :=
  (!(knowledge_type = "") && !(a.atom_type = knowledge_type)) ||
  (!(source_agent = "") && !(a.source_agent = source_agent))

/-- The loop body of `query_knowledge`: walk the knowledge base in stored
order; for each non-skipped atom bump `access_count`/`last_accessed` and
collect a view; stop (`break`) as soon as `len(results) >= limit` holds after
a collection.  `cnt` is the number of results collected so far. -/
def queryLoop (knowledge_type source_agent : String) (lim : Int) (now : Nat)
    (cnt : Nat) : List (String × KnowledgeAtom) →
    List (String × KnowledgeAtom) × List AtomView
  | [] => ([], [])
  | (aid, atom) :: rest =>
      if querySkip knowledge_type source_agent atom then
        let r := queryLoop knowledge_type source_agent lim now cnt rest
        ((aid, atom) :: r.1, r.2)
      else
        let atom' := { atom with access_count := atom.access_count + 1,
                                 last_accessed := some now }
        let view : AtomView :=
          { atom_id := aid, atom_type := atom'.atom_type, content := atom'.content,
            source_agent := atom'.source_agent, created_at := atom'.created_at,
            access_count := atom'.access_count }
        if ((cnt + 1 : Nat) : Int) ≥ lim then
          ((aid, atom') :: rest, [view])
        else
          let r := queryLoop knowledge_type source_agent lim now (cnt + 1) rest
          ((aid, atom') :: r.1, view :: r.2)

/-- Python `query_knowledge`: filtered scan over the atomspace with access tracking;
`total_results` is the length of the returned page. -/
def query_knowledge (knowledge_type source_agent : String) (lim : Int)
    (now : Nat) (s : OrchState) : QueryResult × OrchState :=
  let r := queryLoop knowledge_type source_agent lim now 0 s.knowledge_base
  ({ total_results := r.2.length, atoms := r.2 },
   { s with knowledge_base := r.1 })

/-- Result of `create_workflow_task`. -/
inductive CreateResult where
  | success (task_id task_type : String) (priority : Int) (assigned_agent : String)
  | invalidJson
deriving Repr, DecidableEq

/-- The comparison used by `task_queue.sort(key=lambda t: t.priority, reverse=True)`. -/
def taskLe (a b : WorkflowTask) : Bool := b.priority ≤ a.priority

/-- Python `create_workflow_task`: validate `task_params`, generate the
timestamp-derived id `f"task_{int(time.time()*1000)}"`, append the new pending
task and stably re-sort the queue by descending priority. -/
def create_workflow_task (decode : String → Option JValue) (now : Nat)
    (task_type task_params assigned_agent : String) (priority : Int)
    (s : OrchState) : CreateResult × OrchState :=
  match (if task_params = "" then some (JValue.jobj []) else decode task_params) with
  | none => (CreateResult.invalidJson, s)
  | some params =>
      let task_id := "task_" ++ toString now
      let task : WorkflowTask :=
        { task_id := task_id, task_type := task_type, params := params,
          assigned_agent := assigned_agent, priority := priority,
          status := "pending", created_at := now, started_at := none,
          completed_at := none, result := none }
      (CreateResult.success task_id task_type priority assigned_agent,
       { s with task_queue := (s.task_queue ++ [task]).mergeSort taskLe })

/-- Result of `claim_workflow_task`. -/
inductive ClaimResult where
  | success (task_id task_type : String) (params : JValue) (priority : Int)
  | notRegistered
  | noAvailableTasks
deriving Repr

/-- Whether a `ClaimResult` is a success. -/
def ClaimResult.isSuccess : ClaimResult → Bool
  | ClaimResult.success _ _ _ _ => true
  | _ => false

/-- The task-selection predicate of `claim_workflow_task`: a specific pending
task when `task_id` is given, otherwise the first pending unassigned task. -/
def claimPick (task_id : String) (t : WorkflowTask) : Bool :=
  if task_id = "" then t.status = "pending" && t.assigned_agent = ""
  else t.task_id = task_id && t.status = "pending"

/-- The in-place mutation `claim_workflow_task` applies to the selected task. -/
def claimUpd (agent_id : String) (now : Nat) (t : WorkflowTask) : WorkflowTask :=
  { t with assigned_agent := agent_id, status := "claimed", started_at := some now }

/-- Python `claim_workflow_task`: verify the agent, select a task (by id or
auto-select), mark it claimed and bump the agent's counters. -/
def claim_workflow_task (now : Nat) (agent_id task_id : String)
    (s : OrchState) : ClaimResult × OrchState :=
  match dictLookup s.agents agent_id with
  | none => (ClaimResult.notRegistered, s)
  | some agent =>
      match s.task_queue.find? (claimPick task_id) with
      | none => (ClaimResult.noAvailableTasks, s)
      | some t =>
          let queue' := modifyFirst (claimPick task_id) (claimUpd agent_id now)
                          s.task_queue
          let agent' := { agent with task_count := agent.task_count + 1,
                                     last_active := now }
          (ClaimResult.success t.task_id t.task_type t.params t.priority,
           { s with task_queue := queue',
                    agents := dictInsert s.agents agent_id agent' })

/-- Result of `complete_workflow_task`. -/
inductive CompleteResult where
  | success (task_id task_status : String)
  | notFound
  | invalidJson
deriving Repr, DecidableEq

/-- The record update `complete_workflow_task` applies to the found task. -/
def completeUpd (newStatus : String) (now : Nat) (result_data : JValue)
    (t : WorkflowTask) : WorkflowTask :=
  { t with status := newStatus, completed_at := some now,
           result := some result_data }

/-- Python `complete_workflow_task`: find the task by id (no status guard), validate
the `result` payload, set the terminal status and append a history record. -/
def complete_workflow_task (decode : String → Option JValue) (now : Nat)
    (task_id result : String) (success : Bool) (s : OrchState) :
    CompleteResult × OrchState :=
  match s.task_queue.find? (fun t => t.task_id = task_id) with
  | none => (CompleteResult.notFound, s)
  | some t =>
      match (if result = "" then some (JValue.jobj []) else decode result) with
      | none => (CompleteResult.invalidJson, s)
      | some result_data =>
          let newStatus := if success then "completed" else "failed"
          let t' := completeUpd newStatus now result_data t
          let queue' := modifyFirst (fun t => t.task_id = task_id)
                          (completeUpd newStatus now result_data) s.task_queue
          let record : HistoryRecord :=
            { task_id := task_id, task_type := t'.task_type,
              agent := t'.assigned_agent, status := t'.status,
              completed_at := now, result := result_data }
          (CompleteResult.success task_id t'.status,
           { s with task_queue := queue',
                    workflow_history := s.workflow_history ++ [record] })

/-- One entry of the `tasks` list returned by `list_workflow_tasks`. -/
structure TaskView where
  task_id : String
  task_type : String
  status : String
  assigned_agent : String
  priority : Int
  created_at : Nat
  params : JValue
deriving Repr

/-- Result of `list_workflow_tasks`. -/
structure ListTasksResult where
  total_tasks : Nat
  tasks : List TaskView
deriving Repr

/-- The view `list_workflow_tasks` builds for each task (an unassigned task is
reported as `"unassigned"`). -/
def taskView (t : WorkflowTask) : TaskView :=
  { task_id := t.task_id, task_type := t.task_type, status := t.status,
    assigned_agent := if t.assigned_agent = "" then "unassigned" else t.assigned_agent,
    priority := t.priority, created_at := t.created_at, params := t.params }

/-- Python `list_workflow_tasks`: filter the queue (in stored order) by optional
status and assigned agent. -/
def list_workflow_tasks (status assigned_agent : String) (s : OrchState) :
    ListTasksResult :=
  let results := (s.task_queue.filter (fun t =>
      (status = "" || t.status = status) &&
      (assigned_agent = "" || t.assigned_agent = assigned_agent))).map taskView
  { total_tasks := results.length, tasks := results }

/-- The aggregate view returned by `get_orchestration_status`. -/
structure StatusView where
  active_agents : Nat
  total_agents : Nat
  pending_tasks : Nat
  claimed_tasks : Nat
  completed_tasks : Nat
  knowledge_atoms : Nat
deriving Repr, DecidableEq

/-- Python `get_orchestration_status`: pure counting over the stores. -/
def get_orchestration_status (s : OrchState) : StatusView :=
  { active_agents := (s.agents.filter (fun p => p.2.status = "active")).length,
    total_agents := s.agents.length,
    pending_tasks := (s.task_queue.filter (fun t => t.status = "pending")).length,
    claimed_tasks := (s.task_queue.filter (fun t => t.status = "claimed")).length,
    completed_tasks := s.workflow_history.length,
    knowledge_atoms := s.knowledge_base.length }

/-- Result of `clear_orchestration_state`. -/
inductive ClearResult where
  | success
  | confirmRequired
deriving Repr, DecidableEq

/-- Python `clear_orchestration_state`: wipe all four stores, only when confirmed. -/
def clear_orchestration_state (confirm : Bool) (s : OrchState) :
    ClearResult × OrchState :=
  if !confirm then (ClearResult.confirmRequired, s)
  else (ClearResult.success, initState)

/-! ### Derived definitions used in the statements -/

/-- Availability test for auto-claim: pending and unassigned. -/
def availableTask (t : WorkflowTask) : Bool :=
  t.status = "pending" && t.assigned_agent = ""

/-- Position of a status along the lifecycle pending → claimed → completed/failed. -/
def statusRank (st : String) : Nat :=
  if st = "pending" then 0
  else if st = "claimed" then 1
  else if st = "completed" then 2
  else if st = "failed" then 2
  else 0

/-- Queue `q'` refines queue `q` without moving any task's status backward:
same length, per-position status rank nondecreasing, and no task returned to
pending. -/
def rankMono (q q' : List WorkflowTask) : Prop :=
  q'.length = q.length ∧
  ∀ (i : Nat) (h : i < q.length) (h' : i < q'.length),
    statusRank (q.get ⟨i, h⟩).status ≤ statusRank (q'.get ⟨i, h'⟩).status ∧
    ((q'.get ⟨i, h'⟩).status = "pending" → (q.get ⟨i, h⟩).status = "pending")

/-- Descending priority with ties broken by creation time — the queue order
the spec requires, on stored tasks. -/
def priorityStable (a b : WorkflowTask) : Prop :=
  b.priority ≤ a.priority ∧ (a.priority = b.priority → a.created_at < b.created_at)

/-- Descending priority with ties broken by creation time, on listed views. -/
def viewPriorityStable (a b : TaskView) : Prop :=
  b.priority ≤ a.priority ∧ (a.priority = b.priority → a.created_at < b.created_at)

/-- The arguments of one `create_workflow_task` call. -/
structure CreateIn where
  now : Nat
  task_type : String
  task_params : String
  assigned_agent : String
  priority : Int
deriving Repr

/-- Run a sequence of `create_workflow_task` calls. -/
def runCreates (decode : String → Option JValue) (inputs : List CreateIn)
    (s : OrchState) : OrchState :=
  inputs.foldl (fun st inp =>
    (create_workflow_task decode inp.now inp.task_type inp.task_params
      inp.assigned_agent inp.priority st).2) s

/-- The task record a successful `create_workflow_task` call appends for the
given call arguments and decoded params. -/
def createdTask (inp : CreateIn) (params : JValue) : WorkflowTask :=
  { task_id := "task_" ++ toString inp.now, task_type := inp.task_type,
    params := params, assigned_agent := inp.assigned_agent,
    priority := inp.priority, status := "pending", created_at := inp.now,
    started_at := none, completed_at := none, result := none }

/-- The access-tracking update `query_knowledge` applies to a returned atom. -/
def bumpAtom (now : Nat) (a : KnowledgeAtom) : KnowledgeAtom :=
  { a with access_count := a.access_count + 1, last_accessed := some now }

/-! ### Concrete fixtures for witnesses and counterexamples -/

/-- A decoder standing in for `json.loads` on the concrete strings below:
the string `"notjson"` fails to parse, every other string parses. -/
def decodeFx : String → Option JValue := fun s =>
  if s = "notjson" then none else some JValue.null

/-- A registered agent fixture. -/
def fxAgent : AgentSession :=
  { agent_id := "a1", agent_type := "cursor", capabilities := ["c1"],
    created_at := 1, last_active := 1, status := "active", task_count := 0,
    metadata := JValue.jobj [] }

/-- A second registered agent fixture. -/
def fxAgent2 : AgentSession :=
  { fxAgent with agent_id := "a2", agent_type := "windsurf" }

/-- A pending unassigned task fixture. -/
def fxTaskPending : WorkflowTask :=
  { task_id := "t1", task_type := "build", params := JValue.null,
    assigned_agent := "", priority := 5, status := "pending",
    created_at := 2, started_at := none, completed_at := none, result := none }

/-- A pending task pre-assigned to agent `a2`. -/
def fxTaskAssigned : WorkflowTask :=
  { fxTaskPending with task_id := "t2", assigned_agent := "a2" }

/-- Two registered agents and a single pending unassigned task. -/
def fxStClaim : OrchState :=
  { agents := [("a1", fxAgent), ("a2", fxAgent2)], knowledge_base := [],
    task_queue := [fxTaskPending], workflow_history := [] }

/-- Two registered agents and an empty task queue. -/
def fxStNoTasks : OrchState := { fxStClaim with task_queue := [] }

/-- One registered agent and a pending task pre-assigned to the other agent. -/
def fxStC10 : OrchState := { fxStClaim with task_queue := [fxTaskAssigned] }

/-- A knowledge atom fixture of type `"actor"`. -/
def fxAtomA : KnowledgeAtom :=
  { atom_type := "actor", content := JValue.null, source_agent := "a1",
    created_at := 1, access_count := 0, last_accessed := none,
    metadata := JValue.jobj [] }

/-- A knowledge atom fixture of type `"blueprint"`. -/
def fxAtomB : KnowledgeAtom := { fxAtomA with atom_type := "blueprint" }

/-- A store with two knowledge atoms of different types. -/
def fxStAtoms : OrchState :=
  { initState with knowledge_base := [("k1", fxAtomA), ("k2", fxAtomB)] }

/-- A store with a single knowledge atom. -/
def fxStOneAtom : OrchState :=
  { initState with knowledge_base := [("k1", fxAtomA)] }

/-- One registered agent and a single pending task. -/
def fxStOneTask : OrchState :=
  { initState with task_queue := [fxTaskPending], agents := [("a1", fxAgent)] }

/-- A three-task creation scenario (priorities 1, 10, 5 at times 1, 2, 3). -/
def fxCreates : List CreateIn :=
  [{ now := 1, task_type := "a", task_params := "", assigned_agent := "", priority := 1 },
   { now := 2, task_type := "b", task_params := "", assigned_agent := "", priority := 10 },
   { now := 3, task_type := "c", task_params := "", assigned_agent := "", priority := 5 }]

/-! ### Helper lemmas -/

theorem dictLookup_dictInsert_self (d : List (String × α)) (k : String) (v : α) :
    dictLookup (dictInsert d k v) k = some v := by
  induction d with
  | nil => simp [dictInsert, dictLookup]
  | cons p rest ih =>
      obtain ⟨k', v'⟩ := p
      by_cases h : k' = k <;> simp [dictInsert, dictLookup, h, ih]

theorem dictLookup_dictInsert_ne (d : List (String × α)) (k k' : String) (v : α)
    (h : k ≠ k') : dictLookup (dictInsert d k v) k' = dictLookup d k' := by
  induction d with
  | nil => simp [dictInsert, dictLookup, h]
  | cons p rest ih =>
      obtain ⟨k'', v''⟩ := p
      by_cases h2 : k'' = k
      · subst h2; simp [dictInsert, dictLookup, h]
      · simp [dictInsert, dictLookup, h2, ih]

theorem modifyFirst_length (p : α → Bool) (f : α → α) (l : List α) :
    (modifyFirst p f l).length = l.length := by
  induction l with
  | nil => rfl
  | cons x xs ih => by_cases h : p x <;> simp [modifyFirst, h, ih]

theorem find?_modifyFirst_decomp (p : α → Bool) (f : α → α) (l : List α) (t : α)
    (h : l.find? p = some t) :
    ∃ l₁ l₂, l = l₁ ++ t :: l₂ ∧ (∀ x ∈ l₁, p x = false) ∧ p t = true ∧
      modifyFirst p f l = l₁ ++ f t :: l₂ := by
  induction l with
  | nil => simp [List.find?] at h
  | cons x xs ih =>
      by_cases hx : p x
      · rw [List.find?_cons_of_pos _ hx] at h
        cases h
        exact ⟨[], xs, rfl, by simp, hx, by simp [modifyFirst, hx]⟩
      · rw [List.find?_cons_of_neg _ hx] at h
        obtain ⟨l₁, l₂, heq, h1, h2, h3⟩ := ih h
        refine ⟨x :: l₁, l₂, by simp [heq], ?_, h2, ?_⟩
        · intro y hy
          rcases List.mem_cons.mp hy with rfl | hy
          · simpa using hx
          · exact h1 y hy
        · simp [modifyFirst, hx, h3]

theorem modifyFirst_getElem (p : α → Bool) (f : α → α) (l : List α) (i : Nat)
    (h : i < l.length) (h' : i < (modifyFirst p f l).length) :
    (modifyFirst p f l)[i] = l[i] ∨
      ((modifyFirst p f l)[i] = f l[i] ∧ p l[i] = true) := by
  induction l generalizing i with
  | nil => simp at h
  | cons x xs ih =>
      by_cases hx : p x
      · cases i with
        | zero => right; simp [modifyFirst, hx]
        | succ n => left; simp [modifyFirst, hx]
      · cases i with
        | zero => left; simp [modifyFirst, hx]
        | succ n =>
            have hn : n < xs.length := by simpa using h
            have hn' : n < (modifyFirst p f xs).length := by
              simpa [modifyFirst_length] using hn
            have := ih n hn hn'
            simpa [modifyFirst, hx] using this

/-! ### Claim theorems -/

/-- C9: re-registering an existing `agent_id` leaves the stored session's
`task_count`, `created_at`, `agent_type` and `capabilities` unchanged (the
newly supplied type and capabilities are ignored); only `last_active` is
refreshed to the call time and `status` is set back to `"active"`. -/
theorem C9_reregister_preserves_session (now : Nat)
    (agent_id agent_type capabilities : String) (s : OrchState)
    (a : AgentSession) (h : dictLookup s.agents agent_id = some a) :
    (register_agent now agent_id agent_type capabilities s).1 =
      RegisterResult.reactivated a.agent_id a.agent_type a.capabilities a.task_count ∧
    dictLookup (register_agent now agent_id agent_type capabilities s).2.agents agent_id =
      some { a with last_active := now, status := "active" } := by
  simp [register_agent, h, dictLookup_dictInsert_self]

/-- Witness for C9: re-registering agent `a1` with a different type and
capability string preserves the original session data. -/
theorem C9_reregister_preserves_session_witness :
    dictLookup fxStClaim.agents "a1" = some fxAgent ∧
    (register_agent 7 "a1" "windsurf" "newcap" fxStClaim).1 =
      RegisterResult.reactivated fxAgent.agent_id fxAgent.agent_type
        fxAgent.capabilities fxAgent.task_count ∧
    dictLookup (register_agent 7 "a1" "windsurf" "newcap" fxStClaim).2.agents "a1" =
      some { fxAgent with last_active := 7, status := "active" } := by
  have h := C9_reregister_preserves_session 7 "a1" "windsurf" "newcap" fxStClaim fxAgent rfl
  exact ⟨rfl, h.1, h.2⟩

/-- C2 fails on the code: two `share_knowledge` calls that observe the same
millisecond timestamp generate the SAME `atom_id` (the id is derived from the
timestamp alone), and the second call silently overwrites the first atom,
leaving a single atom in the store. -/
theorem C2_same_millisecond_id_collision :
    (share_knowledge decodeFx 5 "actor" "" "agentA" "" initState).1 =
      ShareResult.success "actor_5" "actor" 5 ∧
    (share_knowledge decodeFx 5 "actor" "" "agentB" ""
        (share_knowledge decodeFx 5 "actor" "" "agentA" "" initState).2).1 =
      ShareResult.success "actor_5" "actor" 5 ∧
    (share_knowledge decodeFx 5 "actor" "" "agentB" ""
        (share_knowledge decodeFx 5 "actor" "" "agentA" "" initState).2).2.knowledge_base =
      [("actor_5", { atom_type := "actor", content := JValue.jobj [],
                     source_agent := "agentB", created_at := 5, access_count := 0,
                     last_accessed := none, metadata := JValue.jobj [] })] :=
  ⟨rfl, rfl, rfl⟩

/-- C10: a claim naming a specific `task_id` of an existing pending task only
checks the status, so it succeeds even when `assigned_agent` is already set to
a different agent, and it overwrites the assignment with the caller. -/
theorem C10_claim_by_id_overrides_assignment (now : Nat)
    (agent_id task_id : String) (s : OrchState) (agent : AgentSession)
    (t : WorkflowTask) (hA : dictLookup s.agents agent_id = some agent)
    (hT : s.task_queue.find? (claimPick task_id) = some t)
    (hOther : t.assigned_agent ≠ agent_id) (hSet : t.assigned_agent ≠ "") :
    (claim_workflow_task now agent_id task_id s).1 =
      ClaimResult.success t.task_id t.task_type t.params t.priority ∧
    ∃ l₁ l₂, s.task_queue = l₁ ++ t :: l₂ ∧
      (claim_workflow_task now agent_id task_id s).2.task_queue =
        l₁ ++ { t with assigned_agent := agent_id, status := "claimed",
                       started_at := some now } :: l₂ := by
  obtain ⟨l₁, l₂, heq, h1, h2, h3⟩ := find?_modifyFirst_decomp (claimPick task_id)
    (claimUpd agent_id now) s.task_queue t hT
  refine ⟨?_, l₁, l₂, heq, ?_⟩
  · simp [claim_workflow_task, hA, hT]
  · simp only [claim_workflow_task, hA, hT]
    rw [h3]
    rfl

/-- Witness for C10: agent `a1` claims by id the pending task `t2` that is
pre-assigned to `a2`; the claim succeeds and reassigns the task to `a1`. -/
theorem C10_claim_by_id_overrides_assignment_witness :
    fxTaskAssigned.assigned_agent = "a2" ∧ fxTaskAssigned.status = "pending" ∧
    (claim_workflow_task 9 "a1" "t2" fxStC10).1 =
      ClaimResult.success fxTaskAssigned.task_id fxTaskAssigned.task_type
        fxTaskAssigned.params fxTaskAssigned.priority ∧
    ∃ l₁ l₂, fxStC10.task_queue = l₁ ++ fxTaskAssigned :: l₂ ∧
      (claim_workflow_task 9 "a1" "t2" fxStC10).2.task_queue =
        l₁ ++ { fxTaskAssigned with assigned_agent := "a1", status := "claimed",
                                    started_at := some 9 } :: l₂ := by
  have h := C10_claim_by_id_overrides_assignment 9 "a1" "t2" fxStC10 fxAgent
    fxTaskAssigned rfl rfl (by decide) (by decide)
  exact ⟨rfl, rfl, h.1, h.2⟩

theorem claimPick_empty : claimPick "" = availableTask := by
  funext t
  simp [claimPick, availableTask]

/-- C7: an auto-claim (`task_id` omitted) by a registered agent claims the
first pending unassigned task in the priority-sorted queue — its status
becomes claimed, `assigned_agent` becomes the caller, `started_at` is set to
the current time, and the agent's `task_count` grows by one — and when no
pending unassigned task exists the call fails with NoAvailableTask and the
state is unchanged. -/
theorem C7_auto_claim_first_available (now : Nat) (agent_id : String)
    (s : OrchState) (agent : AgentSession)
    (hA : dictLookup s.agents agent_id = some agent) :
    (∀ t, s.task_queue.find? availableTask = some t →
      (claim_workflow_task now agent_id "" s).1 =
        ClaimResult.success t.task_id t.task_type t.params t.priority ∧
      t.status = "pending" ∧ t.assigned_agent = "" ∧
      (∃ l₁ l₂, s.task_queue = l₁ ++ t :: l₂ ∧
        (∀ x ∈ l₁, availableTask x = false) ∧
        (claim_workflow_task now agent_id "" s).2.task_queue =
          l₁ ++ { t with assigned_agent := agent_id, status := "claimed",
                         started_at := some now } :: l₂) ∧
      dictLookup (claim_workflow_task now agent_id "" s).2.agents agent_id =
        some { agent with task_count := agent.task_count + 1,
                          last_active := now }) ∧
    (s.task_queue.find? availableTask = none →
      claim_workflow_task now agent_id "" s = (ClaimResult.noAvailableTasks, s)) := by
  constructor
  · intro t hT
    have hT' : s.task_queue.find? (claimPick "") = some t := by
      rw [claimPick_empty]; exact hT
    obtain ⟨l₁, l₂, heq, hl1, hpt, hmod⟩ := find?_modifyFirst_decomp (claimPick "")
      (claimUpd agent_id now) s.task_queue t hT'
    have hpend : t.status = "pending" ∧ t.assigned_agent = "" := by
      rw [claimPick_empty] at hpt
      simpa [availableTask] using hpt
    refine ⟨?_, hpend.1, hpend.2, ⟨l₁, l₂, heq, ?_, ?_⟩, ?_⟩
    · simp [claim_workflow_task, hA, hT']
    · intro x hx
      rw [← claimPick_empty]
      exact hl1 x hx
    · simp only [claim_workflow_task, hA, hT']
      rw [hmod]
      rfl
    · simp only [claim_workflow_task, hA, hT']
      exact dictLookup_dictInsert_self ..
  · intro hN
    have hN' : s.task_queue.find? (claimPick "") = none := by
      rw [claimPick_empty]; exact hN
    simp [claim_workflow_task, hA, hN']

/-- Witness for C7: in a state with one pending unassigned task, agent `a1`
auto-claims it; in a state without one, the auto-claim fails with
NoAvailableTask and leaves the state unchanged. -/
theorem C7_auto_claim_first_available_witness :
    fxStClaim.task_queue.find? availableTask = some fxTaskPending ∧
    (claim_workflow_task 9 "a1" "" fxStClaim).1 =
      ClaimResult.success fxTaskPending.task_id fxTaskPending.task_type
        fxTaskPending.params fxTaskPending.priority ∧
    dictLookup (claim_workflow_task 9 "a1" "" fxStClaim).2.agents "a1" =
      some { fxAgent with task_count := fxAgent.task_count + 1, last_active := 9 } ∧
    claim_workflow_task 9 "a1" "" fxStNoTasks = (ClaimResult.noAvailableTasks, fxStNoTasks) := by
  have h1 := (C7_auto_claim_first_available 9 "a1" fxStClaim fxAgent rfl).1
    fxTaskPending rfl
  have h2 := (C7_auto_claim_first_available 9 "a1" fxStNoTasks fxAgent rfl).2 rfl
  exact ⟨rfl, h1.1, h1.2.2.2.2, h2⟩

/-- C1: each claim transaction runs atomically under the global lock, so two
concurrent auto-claims serialise; against a queue holding exactly one pending
unassigned task, the first-executed claim succeeds and the second returns
NoAvailableTask — quantifying over both agents and both wall-clock readings
covers both interleavings, so the two claims never both succeed. -/
theorem C1_concurrent_claims_single_task (now1 now2 : Nat) (a1 a2 : String)
    (s : OrchState) (ag1 ag2 : AgentSession)
    (h1 : dictLookup s.agents a1 = some ag1)
    (h2 : dictLookup s.agents a2 = some ag2)
    (hone : s.task_queue.countP availableTask = 1) :
    (claim_workflow_task now1 a1 "" s).1.isSuccess = true ∧
    (claim_workflow_task now2 a2 "" (claim_workflow_task now1 a1 "" s).2).1 =
      ClaimResult.noAvailableTasks := by
  have hf : ∃ t, s.task_queue.find? (claimPick "") = some t := by
    cases hfind : s.task_queue.find? (claimPick "") with
    | some t => exact ⟨t, rfl⟩
    | none =>
        rw [claimPick_empty] at hfind
        have h0 : s.task_queue.countP availableTask = 0 :=
          List.countP_eq_zero.mpr (List.find?_eq_none.mp hfind)
        omega
  obtain ⟨t, hT⟩ := hf
  obtain ⟨l₁, l₂, heq, hl1, hpt, hmod⟩ := find?_modifyFirst_decomp (claimPick "")
    (claimUpd a1 now1) s.task_queue t hT
  have hpt' : availableTask t = true := by rw [← claimPick_empty]; exact hpt
  have hl1' : ∀ x ∈ l₁, availableTask x = false := by
    intro x hx; rw [← claimPick_empty]; exact hl1 x hx
  have hl2 : ∀ x ∈ l₂, ¬ (availableTask x = true) := by
    have hcnt := hone
    rw [heq, List.countP_append, List.countP_cons] at hcnt
    have hl1c : l₁.countP availableTask = 0 :=
      List.countP_eq_zero.mpr (fun a ha => by simp [hl1' a ha])
    simp only [hpt', if_true, hl1c] at hcnt
    have h0 : l₂.countP availableTask = 0 := by omega
    exact List.countP_eq_zero.mp h0
  constructor
  · simp [claim_workflow_task, h1, hT, ClaimResult.isSuccess]
  · have hq1 : (claim_workflow_task now1 a1 "" s).2.task_queue =
        l₁ ++ claimUpd a1 now1 t :: l₂ := by
      simp only [claim_workflow_task, h1, hT]
      exact hmod
    have hreg2 : ∃ ag, dictLookup (claim_workflow_task now1 a1 "" s).2.agents a2 =
        some ag := by
      by_cases hcase : a1 = a2
      · subst hcase
        refine ⟨{ ag1 with task_count := ag1.task_count + 1, last_active := now1 }, ?_⟩
        simp only [claim_workflow_task, h1, hT]
        exact dictLookup_dictInsert_self ..
      · refine ⟨ag2, ?_⟩
        simp only [claim_workflow_task, h1, hT]
        rw [dictLookup_dictInsert_ne _ _ _ _ hcase]
        exact h2
    obtain ⟨ag, hag⟩ := hreg2
    have hnone : ((claim_workflow_task now1 a1 "" s).2.task_queue).find?
        (claimPick "") = none := by
      rw [hq1, claimPick_empty]
      apply List.find?_eq_none.mpr
      intro x hx
      rcases List.mem_append.mp hx with hx | hx
      · simp [hl1' x hx]
      · rcases List.mem_cons.mp hx with rfl | hx
        · simp [availableTask, claimUpd]
        · exact hl2 x hx
    revert hag hnone
    generalize (claim_workflow_task now1 a1 "" s).2 = s1
    intro hag hnone
    simp [claim_workflow_task, hag, hnone]

/-- Witness for C1: two registered agents race for the single pending task of
a concrete state; the first claim succeeds, the second reports
NoAvailableTask. -/
theorem C1_concurrent_claims_single_task_witness :
    fxStClaim.task_queue.countP availableTask = 1 ∧
    (claim_workflow_task 3 "a1" "" fxStClaim).1.isSuccess = true ∧
    (claim_workflow_task 4 "a2" "" (claim_workflow_task 3 "a1" "" fxStClaim).2).1 =
      ClaimResult.noAvailableTasks := by
  have h := C1_concurrent_claims_single_task 3 4 "a1" "a2" fxStClaim fxAgent fxAgent2
    rfl rfl (by decide)
  exact ⟨by decide, h.1, h.2⟩

/-- Counterexample to C8 as stated: a `complete_workflow_task` call whose
`result` payload is malformed but whose `task_id` is unknown returns NotFound,
not a MalformedPayload error — the task lookup precedes payload validation. -/
theorem C8_counterexample_unknown_task_malformed :
    decodeFx "notjson" = none ∧
    (complete_workflow_task decodeFx 9 "missing" "notjson" true initState).1 =
      CompleteResult.notFound ∧
    (complete_workflow_task decodeFx 9 "missing" "notjson" true initState).1 ≠
      CompleteResult.invalidJson := by
  refine ⟨rfl, rfl, by decide⟩

/-- C8 (amended): a malformed string payload never reaches the store — the
call leaves the state unchanged and returns an error result: MalformedPayload
for share-knowledge and create-task, and for complete-task MalformedPayload
when the task id exists but NotFound when it is unknown (the lookup precedes
payload validation). -/
theorem C8_malformed_payload_rejected (decode : String → Option JValue)
    (now : Nat) (s : OrchState) :
    (∀ kt kc sa md, kc ≠ "" → decode kc = none →
      share_knowledge decode now kt kc sa md s = (ShareResult.invalidJson, s)) ∧
    (∀ kt kc sa md, md ≠ "" → decode md = none →
      share_knowledge decode now kt kc sa md s = (ShareResult.invalidJson, s)) ∧
    (∀ tt tp aa pr, tp ≠ "" → decode tp = none →
      create_workflow_task decode now tt tp aa pr s = (CreateResult.invalidJson, s)) ∧
    (∀ tid rs ok, rs ≠ "" → decode rs = none →
      (complete_workflow_task decode now tid rs ok s).2 = s ∧
      ((s.task_queue.find? (fun t => t.task_id = tid)).isSome →
        (complete_workflow_task decode now tid rs ok s).1 = CompleteResult.invalidJson) ∧
      (s.task_queue.find? (fun t => t.task_id = tid) = none →
        (complete_workflow_task decode now tid rs ok s).1 = CompleteResult.notFound)) := by
  refine ⟨?_, ?_, ?_, ?_⟩
  · intro kt kc sa md hkc hdec
    cases hmeta : (if md = "" then some (JValue.jobj []) else decode md) with
    | none => simp [share_knowledge, if_neg hkc, hdec, hmeta]
    | some v => simp [share_knowledge, if_neg hkc, hdec, hmeta]
  · intro kt kc sa md hmd hdec
    cases hcont : (if kc = "" then some (JValue.jobj []) else decode kc) with
    | none => simp [share_knowledge, if_neg hmd, hdec, hcont]
    | some v => simp [share_knowledge, if_neg hmd, hdec, hcont]
  · intro tt tp aa pr htp hdec
    simp [create_workflow_task, if_neg htp, hdec]
  · intro tid rs ok hrs hdec
    cases hfind : s.task_queue.find? (fun t => t.task_id = tid) with
    | none => refine ⟨?_, ?_, ?_⟩ <;> simp [complete_workflow_task, hfind]
    | some t =>
        refine ⟨?_, ?_, ?_⟩ <;>
          simp [complete_workflow_task, hfind, if_neg hrs, hdec]

/-- Witness for C8 (amended): with a malformed payload string, share, create
and complete (on an existing task) all reject the input and leave the state
unchanged. -/
theorem C8_malformed_payload_rejected_witness :
    share_knowledge decodeFx 5 "actor" "notjson" "a1" "" fxStOneTask =
      (ShareResult.invalidJson, fxStOneTask) ∧
    create_workflow_task decodeFx 5 "build" "notjson" "" 0 fxStOneTask =
      (CreateResult.invalidJson, fxStOneTask) ∧
    (complete_workflow_task decodeFx 5 "t1" "notjson" true fxStOneTask).2 =
      fxStOneTask ∧
    (complete_workflow_task decodeFx 5 "t1" "notjson" true fxStOneTask).1 =
      CompleteResult.invalidJson := by
  have h := C8_malformed_payload_rejected decodeFx 5 fxStOneTask
  exact ⟨h.1 "actor" "notjson" "a1" "" (by decide) rfl,
         h.2.2.1 "build" "notjson" "" 0 (by decide) rfl,
         (h.2.2.2 "t1" "notjson" true (by decide) rfl).1,
         (h.2.2.2 "t1" "notjson" true (by decide) rfl).2.1 (by decide)⟩

theorem queryLoop_length_le (kt sa : String) (lim : Int) (now : Nat) :
    ∀ (kb : List (String × KnowledgeAtom)) (cnt : Nat),
      ((queryLoop kt sa lim now cnt kb).2.length : Int) ≤ max (lim - cnt) 1 := by
  intro kb
  induction kb with
  | nil =>
      intro cnt
      simp only [queryLoop, List.length_nil, Nat.cast_zero]
      have := le_max_right (lim - (cnt : Int)) 1
      omega
  | cons p rest ih =>
      intro cnt
      obtain ⟨aid, atom⟩ := p
      by_cases hskip : querySkip kt sa atom
      · simpa [queryLoop, hskip] using ih cnt
      · by_cases hstop : ((cnt + 1 : Nat) : Int) ≥ lim
        · simp only [queryLoop, hskip, if_false, if_pos hstop, Bool.false_eq_true,
            if_neg, List.length_cons, List.length_nil, Nat.cast_one, Nat.cast_ofNat]
          have := le_max_right (lim - (cnt : Int)) 1
          simp
        · have h2 := ih (cnt + 1)
          simp only [queryLoop, hskip, if_neg hstop, Bool.false_eq_true, false_and,
            List.length_cons] at h2 ⊢
          push_cast at h2 hstop ⊢
          have hlt : ((cnt : Int) + 1) < lim := by omega
          rw [max_eq_left (by omega)] at h2
          rw [max_eq_left (by omega)]
          simp only [List.length_cons]
          push_cast
          omega

/-- Counterexample to C6 as stated: with `limit = 0` and one matching atom in
the store, the returned page contains one atom, exceeding the limit — the
`len(results) >= limit` break only runs after a result has been appended. -/
theorem C6_counterexample_limit_zero :
    (query_knowledge "" "" 0 7 fxStOneAtom).1.atoms.length = 1 ∧
    ¬ (((query_knowledge "" "" 0 7 fxStOneAtom).1.atoms.length : Int) ≤ 0) := by
  refine ⟨rfl, by decide⟩

/-- C6 (amended): the returned page holds at most `limit` atoms when
`limit ≥ 1` and at most one atom when `limit ≤ 0` (together: at most
`max limit 1`), and `total_results` equals the length of the returned page,
not the total number of matches in the store. -/
theorem C6_limit_bound_and_total (kt sa : String) (lim : Int) (now : Nat)
    (s : OrchState) :
    (((query_knowledge kt sa lim now s).1.atoms.length : Int) ≤ max lim 1) ∧
    (query_knowledge kt sa lim now s).1.total_results =
      (query_knowledge kt sa lim now s).1.atoms.length := by
  constructor
  · have h := queryLoop_length_le kt sa lim now s.knowledge_base 0
    simpa [query_knowledge] using h
  · rfl

theorem statusRank_le_two (st : String) : statusRank st ≤ 2 := by
  unfold statusRank
  repeat' split
  all_goals omega


theorem rankMono_refl (q : List WorkflowTask) : rankMono q q :=
  ⟨rfl, fun _ _ _ => ⟨le_refl _, fun x => x⟩⟩

theorem rankMono_of_eq {q q' : List WorkflowTask} (h : q' = q) : rankMono q q' := by
  subst h
  exact rankMono_refl q'

/-- Counterexample to C3 as stated: `complete_workflow_task` has no status
guard, so a freshly created task moves directly from pending to completed
without ever being claimed. -/
theorem C3_counterexample_pending_to_completed :
    ((create_workflow_task decodeFx 1 "build" "" "" 0 initState).2.task_queue.map
        WorkflowTask.status) = ["pending"] ∧
    (complete_workflow_task decodeFx 2 "task_1" "" true
        (create_workflow_task decodeFx 1 "build" "" "" 0 initState).2).1 =
      CompleteResult.success "task_1" "completed" ∧
    ((complete_workflow_task decodeFx 2 "task_1" "" true
        (create_workflow_task decodeFx 1 "build" "" "" 0 initState).2).2.task_queue.map
        WorkflowTask.status) = ["completed"] := by
  have h1 : (create_workflow_task decodeFx 1 "build" "" "" 0 initState).2 =
      { initState with task_queue :=
          [{ task_id := "task_" ++ toString 1, task_type := "build",
             params := JValue.jobj [], assigned_agent := "", priority := 0,
             status := "pending", created_at := 1, started_at := none,
             completed_at := none, result := none }] } := by
    simp [create_workflow_task, initState, List.mergeSort_singleton]
  rw [h1]
  exact ⟨rfl, rfl, rfl⟩

/-- C3 (amended): task statuses never move backward along
pending (rank 0) < claimed (rank 1) < completed/failed (rank 2): the two
status-changing operations, claim and complete, keep the queue's length,
never decrease any task's status rank, and never return any task to pending —
claim moves only pending tasks, to claimed.  `complete_workflow_task`,
however, sets the first task with the given id to completed/failed regardless
of its current status, so a pending task may move directly to a terminal
status and a repeated completion may overwrite one terminal status with the
other. -/
theorem C3_status_rank_monotone (decode : String → Option JValue) (now : Nat)
    (agent_id task_id rs : String) (ok : Bool) (s : OrchState) :
    rankMono s.task_queue (claim_workflow_task now agent_id task_id s).2.task_queue ∧
    rankMono s.task_queue (complete_workflow_task decode now task_id rs ok s).2.task_queue := by
  constructor
  · cases hA : dictLookup s.agents agent_id with
    | none => exact rankMono_of_eq (by simp [claim_workflow_task, hA])
    | some agent =>
        cases hT : s.task_queue.find? (claimPick task_id) with
        | none => exact rankMono_of_eq (by simp [claim_workflow_task, hA, hT])
        | some t =>
            have hq : (claim_workflow_task now agent_id task_id s).2.task_queue =
                modifyFirst (claimPick task_id) (claimUpd agent_id now) s.task_queue := by
              simp only [claim_workflow_task, hA, hT]
            rw [hq]
            refine ⟨modifyFirst_length .., ?_⟩
            intro i h h'
            rcases modifyFirst_getElem (claimPick task_id) (claimUpd agent_id now)
                s.task_queue i h (by simpa [modifyFirst_length] using h) with heq | ⟨heq, hp⟩
            · rw [List.get_eq_getElem, List.get_eq_getElem, heq]
              exact ⟨le_refl _, fun x => x⟩
            · rw [List.get_eq_getElem, List.get_eq_getElem, heq]
              have hpend : s.task_queue[i].status = "pending" := by
                by_cases hid : task_id = ""
                · simp [claimPick, hid] at hp
                  exact hp.1
                · simp [claimPick, hid] at hp
                  exact hp.2
              constructor
              · rw [hpend]
                simp [claimUpd, statusRank]
              · intro hcontra
                simp [claimUpd] at hcontra
  · cases hT : s.task_queue.find? (fun t => t.task_id = task_id) with
    | none => exact rankMono_of_eq (by simp [complete_workflow_task, hT])
    | some t =>
        cases hparse : (if rs = "" then some (JValue.jobj []) else decode rs) with
        | none => exact rankMono_of_eq (by simp [complete_workflow_task, hT, hparse])
        | some rd =>
            have hq : (complete_workflow_task decode now task_id rs ok s).2.task_queue =
                modifyFirst (fun t => t.task_id = task_id)
                  (completeUpd (if ok then "completed" else "failed") now rd)
                  s.task_queue := by
              simp only [complete_workflow_task, hT, hparse]
            rw [hq]
            refine ⟨modifyFirst_length .., ?_⟩
            intro i h h'
            rcases modifyFirst_getElem (fun t => t.task_id = task_id)
                (completeUpd (if ok then "completed" else "failed") now rd)
                s.task_queue i h (by simpa [modifyFirst_length] using h) with heq | ⟨heq, hp⟩
            · rw [List.get_eq_getElem, List.get_eq_getElem, heq]
              exact ⟨le_refl _, fun x => x⟩
            · rw [List.get_eq_getElem, List.get_eq_getElem, heq]
              constructor
              · have h2 : statusRank ((completeUpd (if ok then "completed" else "failed")
                    now rd) s.task_queue[i]).status = 2 := by
                  cases ok <;> simp [completeUpd, statusRank]
                rw [h2]
                exact statusRank_le_two _
              · intro hcontra
                cases ok <;> simp [completeUpd] at hcontra

/-- Witness for C3 (amended): in a concrete one-task state, both an auto-claim
and a completion keep the task's status rank nondecreasing. -/
theorem C3_status_rank_monotone_witness :
    rankMono fxStOneTask.task_queue
      (claim_workflow_task 9 "a1" "" fxStOneTask).2.task_queue ∧
    rankMono fxStOneTask.task_queue
      (complete_workflow_task decodeFx 9 "t1" "" true fxStOneTask).2.task_queue :=
  C3_status_rank_monotone decodeFx 9 "a1" "t1" "" true fxStOneTask

theorem queryLoop_spec (kt sa : String) (lim : Int) (now : Nat) :
    ∀ (kb : List (String × KnowledgeAtom)) (cnt : Nat),
      ((queryLoop kt sa lim now cnt kb).1.map Prod.fst = kb.map Prod.fst) ∧
      (∀ v ∈ (queryLoop kt sa lim now cnt kb).2, v.atom_id ∈ kb.map Prod.fst) ∧
      ((kb.map Prod.fst).Nodup →
        ∀ id a, dictLookup kb id = some a →
          (id ∈ (queryLoop kt sa lim now cnt kb).2.map AtomView.atom_id →
            dictLookup (queryLoop kt sa lim now cnt kb).1 id = some (bumpAtom now a)) ∧
          (id ∉ (queryLoop kt sa lim now cnt kb).2.map AtomView.atom_id →
            dictLookup (queryLoop kt sa lim now cnt kb).1 id = some a)) := by
  intro kb
  induction kb with
  | nil =>
      intro cnt
      refine ⟨rfl, ?_, ?_⟩
      · intro v hv
        simp [queryLoop] at hv
      · intro _ id a ha
        simp [dictLookup] at ha
  | cons p rest ih =>
      intro cnt
      obtain ⟨aid, atom⟩ := p
      have hndsplit : ((((aid, atom) :: rest).map Prod.fst).Nodup) →
          aid ∉ rest.map Prod.fst ∧ (rest.map Prod.fst).Nodup := by
        intro hnd
        simpa using hnd
      by_cases hskip : querySkip kt sa atom
      · have hres1 : (queryLoop kt sa lim now cnt ((aid, atom) :: rest)).1 =
            (aid, atom) :: (queryLoop kt sa lim now cnt rest).1 := by
          simp [queryLoop, hskip]
        have hres2 : (queryLoop kt sa lim now cnt ((aid, atom) :: rest)).2 =
            (queryLoop kt sa lim now cnt rest).2 := by
          simp [queryLoop, hskip]
        obtain ⟨ih1, ih2, ih3⟩ := ih cnt
        refine ⟨?_, ?_, ?_⟩
        · rw [hres1]
          simp [ih1]
        · intro v hv
          rw [hres2] at hv
          simp only [List.map_cons, List.mem_cons]
          exact Or.inr (ih2 v hv)
        · intro hnd id a ha
          obtain ⟨haid, hnd'⟩ := hndsplit hnd
          rw [hres1, hres2]
          by_cases hid : aid = id
          · subst hid
            have ha' : a = atom := by
              simp [dictLookup] at ha
              exact ha.symm
            subst ha'
            have hnot : aid ∉ (queryLoop kt sa lim now cnt rest).2.map AtomView.atom_id := by
              intro hmem
              simp only [List.mem_map] at hmem
              obtain ⟨v, hv, hveq⟩ := hmem
              exact haid (hveq ▸ ih2 v hv)
            constructor
            · intro hmem
              exact absurd hmem hnot
            · intro _
              simp [dictLookup]
          · have ha' : dictLookup rest id = some a := by
              simpa [dictLookup, hid] using ha
            have hboth := ih3 hnd' id a ha'
            constructor
            · intro hmem
              simpa [dictLookup, hid] using hboth.1 hmem
            · intro hmem
              simpa [dictLookup, hid] using hboth.2 hmem
      · by_cases hstop : ((cnt + 1 : Nat) : Int) ≥ lim
        · have hstop' : lim ≤ (cnt : Int) + 1 := by
            push_cast at hstop
            omega
          have hres1 : (queryLoop kt sa lim now cnt ((aid, atom) :: rest)).1 =
              (aid, bumpAtom now atom) :: rest := by
            simp [queryLoop, hskip, hstop', bumpAtom]
          have hresIds : (queryLoop kt sa lim now cnt ((aid, atom) :: rest)).2.map
              AtomView.atom_id = [aid] := by
            simp [queryLoop, hskip, hstop']
          refine ⟨?_, ?_, ?_⟩
          · rw [hres1]
            simp
          · intro v hv
            have : v.atom_id ∈ [aid] := hresIds ▸ List.mem_map_of_mem AtomView.atom_id hv
            simp only [List.mem_singleton] at this
            simp [this]
          · intro hnd id a ha
            obtain ⟨haid, hnd'⟩ := hndsplit hnd
            rw [hres1, hresIds]
            by_cases hid : aid = id
            · subst hid
              have ha' : a = atom := by
                simp [dictLookup] at ha
                exact ha.symm
              subst ha'
              constructor
              · intro _
                simp [dictLookup]
              · intro hmem
                exact absurd (by simp) hmem
            · have ha' : dictLookup rest id = some a := by
                simpa [dictLookup, hid] using ha
              constructor
              · intro hmem
                simp only [List.mem_singleton] at hmem
                exact absurd hmem.symm hid
              · intro _
                simpa [dictLookup, hid] using ha'
        · have hstop' : ¬ (lim ≤ (cnt : Int) + 1) := by
            push_cast at hstop
            omega
          have hres1 : (queryLoop kt sa lim now cnt ((aid, atom) :: rest)).1 =
              (aid, bumpAtom now atom) :: (queryLoop kt sa lim now (cnt + 1) rest).1 := by
            simp [queryLoop, hskip, hstop', bumpAtom]
          have hresIds : (queryLoop kt sa lim now cnt ((aid, atom) :: rest)).2.map
              AtomView.atom_id =
              aid :: (queryLoop kt sa lim now (cnt + 1) rest).2.map AtomView.atom_id := by
            simp [queryLoop, hskip, hstop']
          have hres2 : ∀ v ∈ (queryLoop kt sa lim now cnt ((aid, atom) :: rest)).2,
              v.atom_id ∈ aid :: (queryLoop kt sa lim now (cnt + 1) rest).2.map
                AtomView.atom_id := by
            intro v hv
            exact hresIds ▸ List.mem_map_of_mem AtomView.atom_id hv
          obtain ⟨ih1, ih2, ih3⟩ := ih (cnt + 1)
          refine ⟨?_, ?_, ?_⟩
          · rw [hres1]
            simp [ih1]
          · intro v hv
            have := hres2 v hv
            simp only [List.mem_cons] at this
            rcases this with h | h
            · simp [h]
            · simp only [List.mem_map] at h
              obtain ⟨w, hw, hweq⟩ := h
              simp only [List.map_cons, List.mem_cons]
              exact Or.inr (hweq ▸ ih2 w hw)
          · intro hnd id a ha
            obtain ⟨haid, hnd'⟩ := hndsplit hnd
            rw [hres1, hresIds]
            by_cases hid : aid = id
            · subst hid
              have ha' : a = atom := by
                simp [dictLookup] at ha
                exact ha.symm
              subst ha'
              constructor
              · intro _
                simp [dictLookup]
              · intro hmem
                exact absurd (by simp) hmem
            · have ha' : dictLookup rest id = some a := by
                simpa [dictLookup, hid] using ha
              have hboth := ih3 hnd' id a ha'
              constructor
              · intro hmem
                simp only [List.mem_cons] at hmem
                rcases hmem with h | h
                · exact absurd h.symm hid
                · simpa [dictLookup, hid] using hboth.1 h
              · intro hmem
                simp only [List.mem_cons, not_or] at hmem
                simpa [dictLookup, hid] using hboth.2 hmem.2

/-- C5: every atom included in a query's returned page has its `access_count`
incremented by exactly one and its `last_accessed` set to the query time,
while every atom not included — excluded by the filters or cut off by the
limit — is unchanged. -/
theorem C5_query_access_tracking (kt sa : String) (lim : Int) (now : Nat)
    (s : OrchState) (hnd : (s.knowledge_base.map Prod.fst).Nodup)
    (id : String) (a : KnowledgeAtom)
    (ha : dictLookup s.knowledge_base id = some a) :
    (id ∈ (query_knowledge kt sa lim now s).1.atoms.map AtomView.atom_id →
      dictLookup (query_knowledge kt sa lim now s).2.knowledge_base id =
        some { a with access_count := a.access_count + 1,
                      last_accessed := some now }) ∧
    (id ∉ (query_knowledge kt sa lim now s).1.atoms.map AtomView.atom_id →
      dictLookup (query_knowledge kt sa lim now s).2.knowledge_base id = some a) :=
  (queryLoop_spec kt sa lim now s.knowledge_base 0).2.2 hnd id a ha

/-- Witness for C5: querying type `"actor"` over a two-atom store bumps the
matching atom `k1` (returned) and leaves the filtered-out atom `k2` untouched. -/
theorem C5_query_access_tracking_witness :
    dictLookup fxStAtoms.knowledge_base "k1" = some fxAtomA ∧
    "k1" ∈ (query_knowledge "actor" "" 10 7 fxStAtoms).1.atoms.map AtomView.atom_id ∧
    dictLookup (query_knowledge "actor" "" 10 7 fxStAtoms).2.knowledge_base "k1" =
      some { fxAtomA with access_count := fxAtomA.access_count + 1,
                          last_accessed := some 7 } ∧
    dictLookup fxStAtoms.knowledge_base "k2" = some fxAtomB ∧
    "k2" ∉ (query_knowledge "actor" "" 10 7 fxStAtoms).1.atoms.map AtomView.atom_id ∧
    dictLookup (query_knowledge "actor" "" 10 7 fxStAtoms).2.knowledge_base "k2" =
      some fxAtomB := by
  have h1 := C5_query_access_tracking "actor" "" 10 7 fxStAtoms (by decide) "k1" fxAtomA rfl
  have h2 := C5_query_access_tracking "actor" "" 10 7 fxStAtoms (by decide) "k2" fxAtomB rfl
  have hm : "k1" ∈ (query_knowledge "actor" "" 10 7 fxStAtoms).1.atoms.map
      AtomView.atom_id := by decide
  have hn : "k2" ∉ (query_knowledge "actor" "" 10 7 fxStAtoms).1.atoms.map
      AtomView.atom_id := by decide
  exact ⟨rfl, hm, h1.1 hm, rfl, hn, h2.2 hn⟩

theorem taskLe_trans : ∀ (a b c : WorkflowTask), taskLe a b → taskLe b c → taskLe a c := by
  intro a b c
  simp only [taskLe, decide_eq_true_eq]
  omega

theorem taskLe_total : ∀ (a b : WorkflowTask), taskLe a b || taskLe b a := by
  intro a b
  simp only [taskLe, Bool.or_eq_true, decide_eq_true_eq]
  omega

theorem mergeSort_append_singleton_priorityStable
    (q : List WorkflowTask) (a : WorkflowTask)
    (hq : q.Pairwise priorityStable)
    (hlt : ∀ t ∈ q, t.created_at < a.created_at) :
    ((q ++ [a]).mergeSort taskLe).Pairwise priorityStable := by
  have key : ∀ (i j : Nat) (hi : i < (q ++ [a]).length) (hj : j < (q ++ [a]).length),
      i < j → (q ++ [a])[i].priority = (q ++ [a])[j].priority →
      (q ++ [a])[i].created_at < (q ++ [a])[j].created_at := by
    intro i j hi hj hij hpri
    have hlen : (q ++ [a]).length = q.length + 1 := by simp
    by_cases hjq : j < q.length
    · have hiq : i < q.length := Nat.lt_trans hij hjq
      rw [List.getElem_append_left hiq, List.getElem_append_left hjq] at hpri ⊢
      exact ((List.pairwise_iff_getElem.mp hq) i j hiq hjq hij).2 hpri
    · have hj' : j = q.length := by omega
      have hiq : i < q.length := by omega
      have hgj : (q ++ [a])[j] = a := List.getElem_concat_length q a j hj' hj
      rw [List.getElem_append_left hiq, hgj] at hpri ⊢
      exact hlt q[i] (List.getElem_mem ..)
  have htr := List.enumLE_trans taskLe_trans
  have hto := List.enumLE_total taskLe_total
  have henum : (List.mergeSort ((q ++ [a]).enum) (List.enumLE taskLe)).map
      (fun x => x.2) = List.mergeSort (q ++ [a]) taskLe := List.mergeSort_enum
  rw [← henum, List.pairwise_map]
  have hs := List.sorted_mergeSort htr hto (q ++ [a]).enum
  have hndenum : (q ++ [a]).enum.Nodup :=
    List.Nodup.of_map Prod.fst (List.nodup_enum_map_fst _)
  have hnd : (List.mergeSort (q ++ [a]).enum (List.enumLE taskLe)).Nodup :=
    (List.mergeSort_perm (q ++ [a]).enum (List.enumLE taskLe)).nodup_iff.mpr hndenum
  refine List.Pairwise.imp_of_mem ?_ (hs.and hnd)
  intro u v hu hv huv
  obtain ⟨i, x⟩ := u
  obtain ⟨j, y⟩ := v
  obtain ⟨hle, hne⟩ := huv
  show priorityStable x y
  rw [List.mem_mergeSort] at hu hv
  have hx' : (q ++ [a])[i]? = some x := List.mk_mem_enum_iff_getElem?.mp hu
  have hy' : (q ++ [a])[j]? = some y := List.mk_mem_enum_iff_getElem?.mp hv
  obtain ⟨hi, hxe⟩ := List.getElem?_eq_some.mp hx'
  obtain ⟨hj, hye⟩ := List.getElem?_eq_some.mp hy'
  by_cases h1 : taskLe x y
  · by_cases h2 : taskLe y x
    · have hij : i ≤ j := by
        simp only [List.enumLE, h1, h2, if_true, decide_eq_true_eq] at hle
        exact hle
      have hij' : i < j := by
        rcases Nat.lt_or_ge i j with h | h
        · exact h
        · exfalso
          have hii : i = j := by omega
          subst hii
          have hxy : x = y := by rw [← hxe, ← hye]
          exact hne (by rw [hxy])
      have hpri : x.priority = y.priority := by
        simp only [taskLe, decide_eq_true_eq] at h1 h2
        omega
      refine ⟨?_, ?_⟩
      · simp only [taskLe, decide_eq_true_eq] at h1
        exact h1
      · intro _
        have hk := key i j hi hj hij' (by rw [hxe, hye]; exact hpri)
        rw [hxe, hye] at hk
        exact hk
    · refine ⟨?_, ?_⟩
      · simp only [taskLe, decide_eq_true_eq] at h1
        exact h1
      · intro hpri
        simp only [taskLe, decide_eq_true_eq] at h2
        omega
  · have h1' : taskLe x y = false := by simpa using h1
    simp [List.enumLE, h1'] at hle

theorem runCreates_invariant (decode : String → Option JValue) :
    ∀ (inputs : List CreateIn) (s : OrchState),
      s.task_queue.Pairwise priorityStable →
      (∀ t ∈ s.task_queue, ∀ inp ∈ inputs, t.created_at < inp.now) →
      ((inputs.map CreateIn.now).Pairwise (· < ·)) →
      (runCreates decode inputs s).task_queue.Pairwise priorityStable := by
  intro inputs
  induction inputs with
  | nil =>
      intro s hq hlt htimes
      simpa [runCreates] using hq
  | cons inp rest ih =>
      intro s hq hlt htimes
      have htimes2 : (inp.now :: rest.map CreateIn.now).Pairwise (· < ·) := by
        simpa using htimes
      have hhead : ∀ x ∈ rest.map CreateIn.now, inp.now < x :=
        (List.pairwise_cons.mp htimes2).1
      have htimes' : (rest.map CreateIn.now).Pairwise (· < ·) :=
        (List.pairwise_cons.mp htimes2).2
      have hstep : runCreates decode (inp :: rest) s =
          runCreates decode rest (create_workflow_task decode inp.now inp.task_type
            inp.task_params inp.assigned_agent inp.priority s).2 := rfl
      rw [hstep]
      cases hparse : (if inp.task_params = "" then some (JValue.jobj [])
          else decode inp.task_params) with
      | none =>
          have hsame : (create_workflow_task decode inp.now inp.task_type
              inp.task_params inp.assigned_agent inp.priority s).2 = s := by
            simp [create_workflow_task, hparse]
          rw [hsame]
          exact ih s hq
            (fun t ht i hi => hlt t ht i (List.mem_cons_of_mem _ hi)) htimes'
      | some params =>
          have hq' : (create_workflow_task decode inp.now inp.task_type
              inp.task_params inp.assigned_agent inp.priority s).2.task_queue =
              (s.task_queue ++ [createdTask inp params]).mergeSort taskLe := by
            simp [create_workflow_task, hparse, createdTask]
          apply ih
          · rw [hq']
            apply mergeSort_append_singleton_priorityStable
            · exact hq
            · intro t ht
              exact hlt t ht inp (List.mem_cons_self ..)
          · intro t ht i hi
            rw [hq'] at ht
            have hmem := List.mem_mergeSort.mp ht
            rcases List.mem_append.mp hmem with h | h
            · exact hlt t h i (List.mem_cons_of_mem _ hi)
            · have ht' : t.created_at = inp.now := by
                simp only [List.mem_singleton] at h
                rw [h]
                rfl
              rw [ht']
              exact hhead i.now (List.mem_map_of_mem CreateIn.now hi)
          · exact htimes'

theorem list_workflow_tasks_all (s : OrchState) :
    (list_workflow_tasks "" "" s).tasks = s.task_queue.map taskView := by
  simp [list_workflow_tasks]

/-- C4: after any sequence of create-task calls (issued at strictly increasing
clock readings, so each task's `created_at` reflects its creation order),
listing the tasks yields them in non-increasing priority order, and any two
tasks with equal priority appear in creation order — the sort on every
insertion is stable. -/
theorem C4_created_tasks_sorted_stable (decode : String → Option JValue)
    (inputs : List CreateIn)
    (htimes : (inputs.map CreateIn.now).Pairwise (· < ·)) :
    ((list_workflow_tasks "" "" (runCreates decode inputs initState)).tasks).Pairwise
      viewPriorityStable := by
  have h := runCreates_invariant decode inputs initState
    (by simp [initState]) (by simp [initState]) htimes
  rw [list_workflow_tasks_all, List.pairwise_map]
  exact h.imp (fun hab => ⟨hab.1, hab.2⟩)

/-- Witness for C4: creating tasks with priorities 1, 10, 5 at times 1, 2, 3
yields a listing in non-increasing priority order, stable on ties. -/
theorem C4_created_tasks_sorted_stable_witness :
    (fxCreates.map CreateIn.now).Pairwise (· < ·) ∧
    ((list_workflow_tasks "" "" (runCreates decodeFx fxCreates initState)).tasks).Pairwise
      viewPriorityStable :=
  ⟨by decide, C4_created_tasks_sorted_stable decodeFx fxCreates (by decide)⟩
